import Mathlib

/-!
Verification of the hangar-api request/response mapping layer.

The repository is a typed client model for the Hangar REST API: request
structs (`src/api.rs`) that produce target URLs and query-parameter sets,
and response structs (`src/object.rs`) that decode JSON payloads.  The
definitions below embed those structs, their serde-derived serialization
to query parameters (serde_urlencoded semantics: an absent `Option` field
emits no pair) and their serde-derived deserialization from JSON,
including the `#[serde(untagged)]` union `VersionDownloads`.
-/

namespace Hangar

/-- A JSON value as seen by the serde data model: numbers are restricted to
integers because every numeric field in the repository is `i64`. -/
inductive Json where
  | null : Json
  | bool (b : Bool) : Json
  | num (n : Int) : Json
  | str (s : String) : Json
  | arr (xs : List Json) : Json
  | obj (fields : List (String × Json)) : Json

/-- Field lookup on a JSON object; any non-object has no fields.  Serde
rejects duplicate fields while decoding a struct, so first-match lookup
agrees with serde on every payload it accepts. -/
def Json.getField (j : Json) (k : String) : Option Json :=
  match j with
  | .obj fields => fields.lookup k
  | _ => none

/-- Serde deserialization of a fieldless enum: the payload must be a
string equal to one of the variant names of `table`; anything else is the
error `err`.  This is the shape of every derived enum `Deserialize` impl
in `src/object.rs`. -/
def decodeEnum {α : Type} (table : List (String × α)) (err : String) : Json → Except String α
  | .str s =>
      match table.lookup s with
      | .some v => .ok v
      | .none => .error err
  | _ => .error err

/-! ### Pagination (`src/object.rs`, lines 6 to 28) -/

/-- `Pagination` from `src/object.rs`: two `i64` fields. -/
structure Pagination where
  limit : Int
  offset : Int
deriving Repr, DecidableEq

/-- The `Default` impl for `Pagination`. -/
def Pagination.default : Pagination := { limit := 25, offset := 0 }

/-- The `From<(i64, i64)>` impl for `Pagination`: copies the pair through
with no validation. -/
def Pagination.fromPair (v : Int × Int) : Pagination :=
  { limit := v.1, offset := v.2 }

/-! ### Enums of the response and request model (`src/object.rs`) -/

/-- `ProjectsSort` from `src/object.rs`. -/
inductive ProjectsSort where
  | Views | Downloads | Newest | Stars | Updated
  | RecentDownloads | RecentViews | Slug
deriving Repr, DecidableEq

/-- The serde `Serialize` impl for `ProjectsSort`: every variant carries an
explicit `rename` except `Slug`, which falls back to `snake_case`. -/
def serializeProjectsSort : ProjectsSort → String
  | .Views => "-views"
  | .Downloads => "-downloads"
  | .Newest => "-newest"
  | .Stars => "-stars"
  | .Updated => "-updated"
  | .RecentDownloads => "-recent-downloads"
  | .RecentViews => "-recent-views"
  | .Slug => "slug"

/-- `Category` from `src/object.rs`. -/
inductive Category where
  | AdminTools | Chat | DevTools | Economy | Gameplay | Games
  | Protection | RolePlaying | WorldManagement | Misc | Undefined
deriving Repr, DecidableEq

/-- Serde `Serialize` for `Category` under `rename_all = "snake_case"`. -/
def serializeCategory : Category → String
  | .AdminTools => "admin_tools"
  | .Chat => "chat"
  | .DevTools => "dev_tools"
  | .Economy => "economy"
  | .Gameplay => "gameplay"
  | .Games => "games"
  | .Protection => "protection"
  | .RolePlaying => "role_playing"
  | .WorldManagement => "world_management"
  | .Misc => "misc"
  | .Undefined => "undefined"

/-- Serde `Deserialize` for `Category`: a closed match on the
`snake_case` variant names, anything else is an error. -/
def decodeCategory : Json → Except String Category :=
  decodeEnum
    [("admin_tools", .AdminTools),
    ("chat", .Chat),
    ("dev_tools", .DevTools),
    ("economy", .Economy),
    ("gameplay", .Gameplay),
    ("games", .Games),
    ("protection", .Protection),
    ("role_playing", .RolePlaying),
    ("world_management", .WorldManagement),
    ("misc", .Misc),
    ("undefined", .Undefined)]
    "unknown variant of Category"

/-- `Platform` from `src/object.rs`. -/
inductive Platform where
  | Paper | Waterfall | Velocity
deriving Repr, DecidableEq

/-- Serde `Serialize` for `Platform` under
`rename_all = "SCREAMING_SNAKE_CASE"`. -/
def serializePlatform : Platform → String
  | .Paper => "PAPER"
  | .Waterfall => "WATERFALL"
  | .Velocity => "VELOCITY"

/-- Serde `Deserialize` for `Platform`. -/
def decodePlatform : Json → Except String Platform :=
  decodeEnum
    [("PAPER", .Paper),
    ("WATERFALL", .Waterfall),
    ("VELOCITY", .Velocity)]
    "unknown variant of Platform"

/-- `Visibility` from `src/object.rs`. -/
inductive Visibility where
  | Public | New | NeedsChanges | NeedsApproval | SoftDelete
deriving Repr, DecidableEq

/-- Serde `Deserialize` for `Visibility` under
`rename_all = "camelCase"`. -/
def decodeVisibility : Json → Except String Visibility :=
  decodeEnum
    [("public", .Public),
    ("new", .New),
    ("needsChanges", .NeedsChanges),
    ("needsApproval", .NeedsApproval),
    ("softDelete", .SoftDelete)]
    "unknown variant of Visibility"

/-- `ReviewState` from `src/object.rs`. -/
inductive ReviewState where
  | Unreviewed | Reviewed | UnderReview | PartiallyReviewed
deriving Repr, DecidableEq

/-- Serde `Deserialize` for `ReviewState` under
`rename_all = "camelCase"`. -/
def decodeReviewState : Json → Except String ReviewState :=
  decodeEnum
    [("unreviewed", .Unreviewed),
    ("reviewed", .Reviewed),
    ("underReview", .UnderReview),
    ("partiallyReviewed", .PartiallyReviewed)]
    "unknown variant of ReviewState"

/-- `ChannelFlags` from `src/object.rs`. -/
inductive ChannelFlags where
  | Frozen | Unstable | Pinned | SendsNotifications | HideByDefault
deriving Repr, DecidableEq

/-- Serde `Deserialize` for `ChannelFlags` under
`rename_all = "SCREAMING_SNAKE_CASE"`. -/
def decodeChannelFlags : Json → Except String ChannelFlags :=
  decodeEnum
    [("FROZEN", .Frozen),
    ("UNSTABLE", .Unstable),
    ("PINNED", .Pinned),
    ("SENDS_NOTIFICATIONS", .SendsNotifications),
    ("HIDE_BY_DEFAULT", .HideByDefault)]
    "unknown variant of ChannelFlags"

/-- `PinnedStatus` from `src/object.rs`. -/
inductive PinnedStatus where
  | None | Version | Channel
deriving Repr, DecidableEq

/-- Serde `Deserialize` for `PinnedStatus` under
`rename_all = "SCREAMING_SNAKE_CASE"`. -/
def decodePinnedStatus : Json → Except String PinnedStatus :=
  decodeEnum
    [("NONE", .None),
    ("VERSION", .Version),
    ("CHANNEL", .Channel)]
    "unknown variant of PinnedStatus"

/-- `ProjectTags` from `src/object.rs`. -/
inductive ProjectTags where
  | Addon | Library | SupportsFolia
deriving Repr, DecidableEq

/-- Serde `Deserialize` for `ProjectTags` under
`rename_all = "SCREAMING_SNAKE_CASE"`. -/
def decodeProjectTags : Json → Except String ProjectTags :=
  decodeEnum
    [("ADDON", .Addon),
    ("LIBRARY", .Library),
    ("SUPPORTS_FOLIA", .SupportsFolia)]
    "unknown variant of ProjectTags"

/-! ### ByPlatform (`src/object.rs`, lines 253 to 279) -/

/-- `ByPlatform<T>` from `src/object.rs`: three independently optional
per-platform slots. -/
structure ByPlatform (T : Type) where
  paper : Option T
  waterfall : Option T
  velocity : Option T
deriving Repr, DecidableEq

/-- `ByPlatform::get`: selects the slot for the requested platform. -/
def ByPlatform.get {T : Type} (b : ByPlatform T) : Platform → Option T
  | .Paper => b.paper
  | .Waterfall => b.waterfall
  | .Velocity => b.velocity

/-- `ByPlatform::iter`: the pairs yielded by the chained iterator, as the
list an exhausting traversal produces. -/
def ByPlatform.iter {T : Type} (b : ByPlatform T) : List (Platform × T) :=
  (b.paper.toList.map fun v => (Platform.Paper, v))
    ++ (b.waterfall.toList.map fun v => (Platform.Waterfall, v))
    ++ (b.velocity.toList.map fun v => (Platform.Velocity, v))

/-- Serde decode of an `Option<T>` struct field: a missing field and an
explicit `null` both give `none`; any other value must decode as `T`. -/
def decodeOptField {T : Type} (dec : Json → Except String T)
    (j : Json) (k : String) : Except String (Option T) :=
  match j.getField k with
  | .none => .ok none
  | .some .null => .ok none
  | .some v => (dec v).map some

/-- Serde `Deserialize` for `ByPlatform<T>`: an object whose recognized
fields are `PAPER`, `WATERFALL` and `VELOCITY`, each optional. -/
def decodeByPlatform {T : Type} (dec : Json → Except String T) :
    Json → Except String (ByPlatform T)
  | .obj fields => do
      let p ← decodeOptField dec (.obj fields) "PAPER"
      let w ← decodeOptField dec (.obj fields) "WATERFALL"
      let v ← decodeOptField dec (.obj fields) "VELOCITY"
      .ok { paper := p, waterfall := w, velocity := v }
  | _ => .error "invalid type: expected struct ByPlatform"

/-- Serde `Deserialize` for `i64`. -/
def decodeInt : Json → Except String Int
  | .num n => .ok n
  | _ => .error "invalid type: expected i64"

/-- Serde `Deserialize` for `String`. -/
def decodeString : Json → Except String String
  | .str s => .ok s
  | _ => .error "invalid type: expected string"

/-! ### VersionDownloads (`src/object.rs`, lines 319 to 341) -/

/-- `VersionDownloadsFileInfo` from `src/object.rs`. -/
structure VersionDownloadsFileInfo where
  name : String
  sizeBytes : Int
  sha256Hash : String
deriving Repr, DecidableEq

/-- `VersionDownloads` from `src/object.rs`: the untagged union of the
hosted and the external download shape. -/
inductive VersionDownloads where
  | Internal (fileInfo : VersionDownloadsFileInfo) (downloadUrl : String)
  | External (externalUrl : String)
deriving Repr, DecidableEq

/-- Serde `Deserialize` for `VersionDownloadsFileInfo`: all three fields
are required. -/
def decodeFileInfo (j : Json) : Except String VersionDownloadsFileInfo :=
  match j.getField "name", j.getField "sizeBytes", j.getField "sha256Hash" with
  | .some (.str n), .some (.num s), .some (.str h) =>
      .ok { name := n, sizeBytes := s, sha256Hash := h }
  | _, _, _ => .error "invalid VersionDownloadsFileInfo"

/-- The attempt serde makes at the `Internal` variant of the untagged
union: `fileInfo` must decode and `downloadUrl` must be a string; unknown
fields are ignored, as serde does inside an untagged enum. -/
def decodeInternal (j : Json) : Except String VersionDownloads :=
  match j.getField "fileInfo", j.getField "downloadUrl" with
  | .some fi, .some (.str du) =>
      (decodeFileInfo fi).map fun info => .Internal info du
  | _, _ => .error "missing field of variant Internal"

/-- The attempt serde makes at the `External` variant of the untagged
union: `externalUrl` must be a string. -/
def decodeExternal (j : Json) : Except String VersionDownloads :=
  match j.getField "externalUrl" with
  | .some (.str u) => .ok (.External u)
  | _ => .error "missing field of variant External"

/-- Serde `Deserialize` for the untagged `VersionDownloads`: try the
variants in declaration order and keep the first success. -/
def decodeVersionDownloads (j : Json) : Except String VersionDownloads :=
  match decodeInternal j with
  | .ok v => .ok v
  | .error _ =>
      match decodeExternal j with
      | .ok v => .ok v
      | .error _ =>
          .error "data did not match any variant of untagged enum VersionDownloads"

/-! ### Request model (`src/api.rs`) -/

/-- `BASE_API_URL` from `src/api.rs`. -/
def BASE_API_URL : String := "https://hangar.papermc.io/api/v1"

/-- Decimal digits of a natural number, most significant first, as serde
serializes an `i64` into a query value. -/
def natDecChars (n : Nat) : List Char :=
  if n = 0 then ['0']
  else ((Nat.digits 10 n).map fun d => Char.ofNat (48 + d)).reverse

/-- Decimal rendering of an `i64`, with a leading minus sign when
negative. -/
def intDecChars (n : Int) : List Char :=
  if n < 0 then '-' :: natDecChars n.natAbs else natDecChars n.toNat

/-- Decimal rendering of an `i64` as a string. -/
def intDec (n : Int) : String := ⟨intDecChars n⟩

/-- Serde serialization of a `bool` query value. -/
def boolStr (b : Bool) : String := if b then "true" else "false"

/-- One optional query pair, serde_urlencoded style: `none` contributes no
pair at all, `some v` contributes exactly one. -/
def optPair {T : Type} (k : String) (f : T → String) : Option T → List (String × String)
  | .none => []
  | .some v => [(k, f v)]

/-- `ProjectsRequest` from `src/api.rs`: pagination plus ten optional
filters, field names camelCase. -/
structure ProjectsRequest where
  prioritizeExactMatch : Option Bool
  pagination : Pagination
  sort : Option ProjectsSort
  category : Option Category
  platform : Option Platform
  owner : Option String
  query : Option String
  license : Option String
  version : Option String
  tag : Option String
  member : Option String

/-- The serialized parameter set of a `ProjectsRequest`: fields in
declaration order, the flattened `Pagination` contributing `limit` and
`offset` in place, every absent option omitted. -/
def ProjectsRequest.params (r : ProjectsRequest) : List (String × String) :=
  optPair "prioritizeExactMatch" boolStr r.prioritizeExactMatch
    ++ [("limit", intDec r.pagination.limit), ("offset", intDec r.pagination.offset)]
    ++ optPair "sort" serializeProjectsSort r.sort
    ++ optPair "category" serializeCategory r.category
    ++ optPair "platform" serializePlatform r.platform
    ++ optPair "owner" id r.owner
    ++ optPair "query" id r.query
    ++ optPair "license" id r.license
    ++ optPair "version" id r.version
    ++ optPair "tag" id r.tag
    ++ optPair "member" id r.member

/-- `HangarRequest::url` for `ProjectsRequest`. -/
def ProjectsRequest.url (_ : ProjectsRequest) : String :=
  BASE_API_URL ++ "/projects"

/-- `ProjectRequest` from `src/api.rs`. -/
structure ProjectRequest where
  slug : String

/-- `HangarRequest::url` for `ProjectRequest`. -/
def ProjectRequest.url (r : ProjectRequest) : String :=
  BASE_API_URL ++ "/projects/" ++ r.slug

/-- `PageRequest` from `src/api.rs`: the slug is marked `serde(skip)`, the
path is a serialized field. -/
structure PageRequest where
  slug : String
  path : String

/-- `HangarRequest::url` for `PageRequest`: only the slug is interpolated;
`path` does not occur in the format string. -/
def PageRequest.url (r : PageRequest) : String :=
  BASE_API_URL ++ "/pages/page/" ++ r.slug

/-- The serialized parameter set of a `PageRequest`: `slug` is skipped, so
only the `path` pair remains. -/
def PageRequest.params (r : PageRequest) : List (String × String) :=
  [("path", r.path)]

/-- `VersionsRequest` from `src/api.rs`: skipped slug, flattened
pagination, four optional filters, field names camelCase. -/
structure VersionsRequest where
  slug : String
  pagination : Pagination
  includeHiddenChannels : Option Bool
  channel : Option String
  platform : Option Platform
  platformVersion : Option String

/-- The serialized parameter set of a `VersionsRequest`: the skipped slug
contributes nothing, absent options are omitted. -/
def VersionsRequest.params (r : VersionsRequest) : List (String × String) :=
  [("limit", intDec r.pagination.limit), ("offset", intDec r.pagination.offset)]
    ++ optPair "includeHiddenChannels" boolStr r.includeHiddenChannels
    ++ optPair "channel" id r.channel
    ++ optPair "platform" serializePlatform r.platform
    ++ optPair "platformVersion" id r.platformVersion

/-- `HangarRequest::url` for `VersionsRequest`. -/
def VersionsRequest.url (r : VersionsRequest) : String :=
  BASE_API_URL ++ "/projects/" ++ r.slug ++ "/versions"

/-- `VersionRequest` from `src/api.rs`. -/
structure VersionRequest where
  slug : String
  name : String

/-- `HangarRequest::url` for `VersionRequest`. -/
def VersionRequest.url (r : VersionRequest) : String :=
  BASE_API_URL ++ "/projects/" ++ r.slug ++ "/versions/" ++ r.name

/-! ### Query strings

The query-string encoding of a parameter set and its inverse, used to
state the pagination round trip of §8.1 of the spec. -/

/-- Join the `key=value` fragments with ampersands. -/
def joinQuery : List String → String
  | [] => ""
  | [x] => x
  | x :: xs => x ++ "&" ++ joinQuery xs

/-- Render a parameter set as a query string. -/
def formatQuery (ps : List (String × String)) : String :=
  joinQuery (ps.map fun p => p.1 ++ "=" ++ p.2)

/-- Split a character list at every occurrence of `sep`. -/
def splitOnChar (sep : Char) : List Char → List (List Char)
  | [] => [[]]
  | c :: rest =>
      if c = sep then [] :: splitOnChar sep rest
      else
        match splitOnChar sep rest with
        | [] => [[c]]
        | g :: gs => (c :: g) :: gs

/-- Split one `key=value` fragment at its first equals sign. -/
def splitKV : List Char → List Char × List Char
  | [] => ([], [])
  | c :: rest =>
      if c = '=' then ([], rest)
      else
        let p := splitKV rest
        (c :: p.1, p.2)

/-- Parse a query string back into its parameter pairs. -/
def parseQuery (s : String) : List (String × String) :=
  (splitOnChar '&' s.data).map fun g => (⟨(splitKV g).1⟩, ⟨(splitKV g).2⟩)

/-- Parse a decimal natural number; anything but a nonempty run of digits
is rejected. -/
def parseNatChars (cs : List Char) : Option Nat :=
  if cs.isEmpty then none
  else if cs.all (fun c => 48 ≤ c.toNat && c.toNat ≤ 57) then
    some (Nat.ofDigits 10 ((cs.map fun c => c.toNat - 48).reverse))
  else none

/-- Parse a decimal integer with an optional leading minus sign. -/
def parseIntChars : List Char → Option Int
  | [] => none
  | c :: rest =>
      if c = '-' then (parseNatChars rest).map fun m => -(m : Int)
      else (parseNatChars (c :: rest)).map fun m => (m : Int)

/-- Parse a decimal integer from a string. -/
def parseIntStr (s : String) : Option Int := parseIntChars s.data

/-! ### Shape predicates for the untagged union

Spec-side characterization of when each variant of the download-info
union has all of its required fields present, stated directly on the
payload fields rather than through the decoder. -/

/-- All three required fields of `VersionDownloadsFileInfo` are present
with the right primitive types. -/
def fileInfoShape (j : Json) : Bool :=
  match j.getField "name", j.getField "sizeBytes", j.getField "sha256Hash" with
  | .some (.str _), .some (.num _), .some (.str _) => true
  | _, _, _ => false

/-- The required fields of the `Internal` variant are all present: a
well-formed `fileInfo` object and a string `downloadUrl`. -/
def hasInternalShape (j : Json) : Bool :=
  (match j.getField "fileInfo" with
   | .some fi => fileInfoShape fi
   | .none => false) &&
  (match j.getField "downloadUrl" with
   | .some (.str _) => true
   | _ => false)

/-- The required field of the `External` variant is present: a string
`externalUrl`. -/
def hasExternalShape (j : Json) : Bool :=
  match j.getField "externalUrl" with
  | .some (.str _) => true
  | _ => false

/-! ### Concrete payloads used to instantiate the theorems -/

/-- A payload carrying exactly the `Internal` variant's fields. -/
def jInternalPayload : Json :=
  .obj [("fileInfo", .obj [("name", .str "plugin.jar"), ("sizeBytes", .num 1024),
          ("sha256Hash", .str "abc")]),
        ("downloadUrl", .str "https://hangar.papermc.io/dl")]

/-- A payload carrying exactly the `External` variant's field. -/
def jExternalPayload : Json :=
  .obj [("externalUrl", .str "https://example.com/dl")]

/-- A payload carrying no variant's fields. -/
def jEmptyPayload : Json := .obj []

/-- An ambiguous payload: the required fields of both variants are
present at once. -/
def jAmbiguousPayload : Json :=
  .obj [("fileInfo", .obj [("name", .str "plugin.jar"), ("sizeBytes", .num 1024),
          ("sha256Hash", .str "abc")]),
        ("downloadUrl", .str "https://hangar.papermc.io/dl"),
        ("externalUrl", .str "https://example.com/dl")]

/-- A payload matching neither variant. -/
def jNoMatchPayload : Json := .obj [("other", .num 1)]

/-- A projects request with every optional filter absent. -/
def allNoneProjectsRequest : ProjectsRequest :=
  { prioritizeExactMatch := none, pagination := Pagination.default,
    sort := none, category := none, platform := none, owner := none,
    query := none, license := none, version := none, tag := none,
    member := none }

/-- A versions request with every optional filter absent. -/
def allNoneVersionsRequest : VersionsRequest :=
  { slug := "example", pagination := Pagination.default,
    includeHiddenChannels := none, channel := none, platform := none,
    platformVersion := none }

/-! ## Helper lemmas -/

theorem lookup_isSome_iff {α : Type} (t : List (String × α)) (s : String) :
    (t.lookup s).isSome = true ↔ s ∈ t.map Prod.fst := by
  induction t with
  | nil => simp [List.lookup]
  | cons p t ih =>
      rcases p with ⟨k, v⟩
      by_cases h : s = k
      · subst h; simp [List.lookup]
      · simp [List.lookup, beq_false_of_ne h, h, ih]

theorem decodeEnum_isOk {α : Type} (t : List (String × α)) (e : String) (j : Json) :
    (decodeEnum t e j).isOk = true ↔ ∃ s, j = .str s ∧ s ∈ t.map Prod.fst := by
  cases j with
  | str s =>
      have hmem : (∃ x, Json.str s = .str x ∧ x ∈ t.map Prod.fst) ↔
          s ∈ t.map Prod.fst := by simp
      rw [hmem, ← lookup_isSome_iff]
      cases h : t.lookup s <;>
        simp [decodeEnum, h, Except.isOk, Except.toBool]
  | null => simp [decodeEnum, Except.isOk, Except.toBool]
  | bool b => simp [decodeEnum, Except.isOk, Except.toBool]
  | num n => simp [decodeEnum, Except.isOk, Except.toBool]
  | arr xs => simp [decodeEnum, Except.isOk, Except.toBool]
  | obj fields => simp [decodeEnum, Except.isOk, Except.toBool]

theorem decodeFileInfo_isOk (j : Json) :
    (decodeFileInfo j).isOk = fileInfoShape j := by
  unfold decodeFileInfo fileInfoShape
  split <;> simp_all [Except.isOk, Except.toBool]

theorem decodeInternal_isOk (j : Json) :
    (decodeInternal j).isOk = hasInternalShape j := by
  unfold decodeInternal hasInternalShape
  split
  case h_1 fi du hfi hdu =>
    rw [hfi, hdu]
    cases h : decodeFileInfo fi <;>
      have := decodeFileInfo_isOk fi <;>
      simp_all [Except.isOk, Except.toBool, Except.map]
  case h_2 a b hne =>
    cases hfi : Json.getField j "fileInfo" <;>
      cases hdu : Json.getField j "downloadUrl" <;>
      simp_all [Except.isOk, Except.toBool]

theorem decodeExternal_isOk (j : Json) :
    (decodeExternal j).isOk = hasExternalShape j := by
  unfold decodeExternal hasExternalShape
  split <;> simp_all [Except.isOk, Except.toBool]

theorem decodeInternal_ok_shape {j : Json} {v : VersionDownloads}
    (h : decodeInternal j = .ok v) : ∃ fi du, v = .Internal fi du := by
  unfold decodeInternal at h
  split at h
  case h_1 fi du hfi hdu =>
    cases hd : decodeFileInfo fi <;> simp [Except.map, hd] at h
    exact ⟨_, _, h.symm⟩
  case h_2 => simp_all

theorem decodeExternal_ok_shape {j : Json} {v : VersionDownloads}
    (h : decodeExternal j = .ok v) : ∃ u, v = .External u := by
  unfold decodeExternal at h
  split at h
  case h_1 u heq =>
    exact ⟨u, (Except.ok.injEq _ _ ▸ h).symm⟩
  case h_2 => simp_all

theorem vd_internal_case (j : Json) (h : hasInternalShape j = true) :
    ∃ fi du, decodeVersionDownloads j = .ok (.Internal fi du) := by
  have hok : (decodeInternal j).isOk = true := by rw [decodeInternal_isOk, h]
  cases hv : decodeInternal j with
  | error e => rw [hv] at hok; simp [Except.isOk, Except.toBool] at hok
  | ok v =>
      obtain ⟨fi, du, rfl⟩ := decodeInternal_ok_shape hv
      exact ⟨fi, du, by simp [decodeVersionDownloads, hv]⟩

theorem vd_external_case (j : Json) (hI : hasInternalShape j = false)
    (hE : hasExternalShape j = true) :
    ∃ u, decodeVersionDownloads j = .ok (.External u) := by
  have hIok : (decodeInternal j).isOk = false := by rw [decodeInternal_isOk, hI]
  have hEok : (decodeExternal j).isOk = true := by rw [decodeExternal_isOk, hE]
  cases hv : decodeInternal j with
  | ok v => rw [hv] at hIok; simp [Except.isOk, Except.toBool] at hIok
  | error e =>
      cases hw : decodeExternal j with
      | error f => rw [hw] at hEok; simp [Except.isOk, Except.toBool] at hEok
      | ok w =>
          obtain ⟨u, rfl⟩ := decodeExternal_ok_shape hw
          exact ⟨u, by simp [decodeVersionDownloads, hv, hw]⟩

theorem vd_error_case (j : Json) (hI : hasInternalShape j = false)
    (hE : hasExternalShape j = false) :
    ∃ e, decodeVersionDownloads j = .error e := by
  have hIok : (decodeInternal j).isOk = false := by rw [decodeInternal_isOk, hI]
  have hEok : (decodeExternal j).isOk = false := by rw [decodeExternal_isOk, hE]
  cases hv : decodeInternal j with
  | ok v => rw [hv] at hIok; simp [Except.isOk, Except.toBool] at hIok
  | error e =>
      cases hw : decodeExternal j with
      | ok w => rw [hw] at hEok; simp [Except.isOk, Except.toBool] at hEok
      | error f =>
          exact ⟨"data did not match any variant of untagged enum VersionDownloads",
            by simp [decodeVersionDownloads, hv, hw]⟩

theorem pair_mem_optPair {T : Type} {s x k : String} {f : T → String} {v : Option T} :
    (s, x) ∈ optPair k f v ↔ s = k ∧ ∃ a, v = some a ∧ x = f a := by
  cases v <;> simp [optPair]

theorem digitChar_toNat {d : Nat} (h : d < 10) :
    (Char.ofNat (48 + d)).toNat = 48 + d := by
  interval_cases d <;> rfl

theorem digitChar_digit {d : Nat} (h : d < 10) :
    48 ≤ (Char.ofNat (48 + d)).toNat ∧ (Char.ofNat (48 + d)).toNat ≤ 57 := by
  rw [digitChar_toNat h]; omega

theorem natDecChars_digits {n : Nat} {c : Char} (hc : c ∈ natDecChars n) :
    48 ≤ c.toNat ∧ c.toNat ≤ 57 := by
  unfold natDecChars at hc
  by_cases h0 : n = 0
  · rw [if_pos h0] at hc
    simp at hc
    subst hc; constructor <;> decide
  · rw [if_neg h0] at hc
    rw [List.mem_reverse, List.mem_map] at hc
    obtain ⟨d, hd, rfl⟩ := hc
    exact digitChar_digit (Nat.digits_lt_base (by norm_num) hd)

theorem natDecChars_ne_nil (n : Nat) : natDecChars n ≠ [] := by
  unfold natDecChars
  by_cases h0 : n = 0
  · rw [if_pos h0]; simp
  · rw [if_neg h0]
    simp [Nat.digits_ne_nil_iff_ne_zero.mpr h0]

theorem parseNat_natDec (n : Nat) : parseNatChars (natDecChars n) = some n := by
  by_cases h0 : n = 0
  · subst h0; decide
  · unfold parseNatChars
    rw [if_neg (by simp [natDecChars_ne_nil n, List.isEmpty_iff])]
    rw [if_pos]
    · congr 1
      unfold natDecChars
      rw [if_neg h0, List.map_reverse, List.reverse_reverse, List.map_map]
      have h2 : ∀ d ∈ Nat.digits 10 n,
          ((fun c => c.toNat - 48) ∘ fun d => Char.ofNat (48 + d)) d = id d := by
        intro d hd
        have hlt := Nat.digits_lt_base (by norm_num) hd
        simp [digitChar_toNat hlt]
      rw [List.map_congr_left h2, List.map_id, Nat.ofDigits_digits]
    · rw [List.all_eq_true]
      intro c hc
      have := natDecChars_digits hc
      simp; omega

theorem parseInt_intDec (n : Int) : parseIntChars (intDecChars n) = some n := by
  by_cases h : n < 0
  · unfold intDecChars
    rw [if_pos h]
    show parseIntChars ('-' :: natDecChars n.natAbs) = some n
    simp only [parseIntChars]
    rw [if_pos trivial, parseNat_natDec]
    have habs : (↑n.natAbs : Int) = -n := Int.ofNat_natAbs_of_nonpos (le_of_lt h)
    simp [habs]
  · push_neg at h
    unfold intDecChars
    rw [if_neg (by omega)]
    cases hs : natDecChars n.toNat with
    | nil => exact absurd hs (natDecChars_ne_nil _)
    | cons c cs =>
        have hdig : 48 ≤ c.toNat ∧ c.toNat ≤ 57 :=
          natDecChars_digits (hs ▸ List.mem_cons_self c cs)
        have hcm : c ≠ '-' := by
          intro e
          rw [e] at hdig
          revert hdig; decide
        simp only [parseIntChars]
        rw [if_neg hcm, ← hs, parseNat_natDec]
        simp [Int.toNat_of_nonneg h]

theorem splitOnChar_of_not_mem {sep : Char} {cs : List Char} (h : sep ∉ cs) :
    splitOnChar sep cs = [cs] := by
  induction cs with
  | nil => rfl
  | cons c rest ih =>
      have hc : ¬ c = sep := by rintro rfl; exact h (List.mem_cons_self _ _)
      have hr : sep ∉ rest := fun m => h (List.mem_cons_of_mem _ m)
      simp [splitOnChar, hc, ih hr]

theorem splitOnChar_append {sep : Char} {xs ys : List Char} (h : sep ∉ xs) :
    splitOnChar sep (xs ++ sep :: ys) = xs :: splitOnChar sep ys := by
  induction xs with
  | nil => simp [splitOnChar]
  | cons c rest ih =>
      have hc : ¬ c = sep := by rintro rfl; exact h (List.mem_cons_self _ _)
      have hr : sep ∉ rest := fun m => h (List.mem_cons_of_mem _ m)
      simp [splitOnChar, hc, ih hr]

theorem splitKV_append {xs ys : List Char} (h : ('=' : Char) ∉ xs) :
    splitKV (xs ++ '=' :: ys) = (xs, ys) := by
  induction xs with
  | nil => simp [splitKV]
  | cons c rest ih =>
      have hc : ¬ c = '=' := by rintro rfl; exact h (List.mem_cons_self _ _)
      have hr : ('=' : Char) ∉ rest := fun m => h (List.mem_cons_of_mem _ m)
      simp [splitKV, hc, ih hr]

theorem intDecChars_mem {n : Int} {c : Char} (hc : c ∈ intDecChars n) :
    c = '-' ∨ (48 ≤ c.toNat ∧ c.toNat ≤ 57) := by
  unfold intDecChars at hc
  by_cases h : n < 0
  · rw [if_pos h, List.mem_cons] at hc
    rcases hc with rfl | hc
    · exact Or.inl rfl
    · exact Or.inr (natDecChars_digits hc)
  · rw [if_neg h] at hc
    exact Or.inr (natDecChars_digits hc)

theorem amp_not_mem_intDecChars (n : Int) : ('&' : Char) ∉ intDecChars n := by
  intro hc
  rcases intDecChars_mem hc with e | hd
  · exact absurd e (by decide)
  · revert hd; decide

/-! ## Claim theorems -/

/-- C1: decoding a `VersionDownloads` payload tries the `Internal`
variant's required fields (`fileInfo` and `downloadUrl`) first and
selects it when they are all present; otherwise it tries the `External`
variant (`externalUrl` present); if neither variant's required fields
are all present, decoding fails with an error. -/
theorem versionDownloads_variant_priority (j : Json) :
    (hasInternalShape j = true →
      ∃ fi du, decodeVersionDownloads j = .ok (.Internal fi du)) ∧
    (hasInternalShape j = false → hasExternalShape j = true →
      ∃ u, decodeVersionDownloads j = .ok (.External u)) ∧
    (hasInternalShape j = false → hasExternalShape j = false →
      ∃ e, decodeVersionDownloads j = .error e) :=
  ⟨vd_internal_case j, vd_external_case j, vd_error_case j⟩

/-- Witness for C1: the three cases at concrete payloads. -/
theorem versionDownloads_variant_priority_witness :
    (∃ fi du, decodeVersionDownloads jInternalPayload = .ok (.Internal fi du)) ∧
    (∃ u, decodeVersionDownloads jExternalPayload = .ok (.External u)) ∧
    (∃ e, decodeVersionDownloads jEmptyPayload = .error e) :=
  ⟨(versionDownloads_variant_priority jInternalPayload).1 rfl,
   (versionDownloads_variant_priority jExternalPayload).2.1 rfl rfl,
   (versionDownloads_variant_priority jEmptyPayload).2.2 rfl rfl⟩

/-- C2: the URL of a `PageRequest` is the base API root followed by
`/pages/page/` and the slug; the `path` field never influences the URL. -/
theorem pageRequest_url_ignores_path (slug p1 p2 : String) :
    (PageRequest.mk slug p1).url =
      "https://hangar.papermc.io/api/v1/pages/page/" ++ slug ∧
    (PageRequest.mk slug p1).url = (PageRequest.mk slug p2).url :=
  ⟨rfl, rfl⟩

/-- C3: the exact serialization literals of `ProjectsSort`: seven
descending variants with a leading dash and the ascending `Slug` with
none. -/
theorem projectsSort_serialization :
    serializeProjectsSort .Views = "-views" ∧
    serializeProjectsSort .Downloads = "-downloads" ∧
    serializeProjectsSort .Newest = "-newest" ∧
    serializeProjectsSort .Stars = "-stars" ∧
    serializeProjectsSort .Updated = "-updated" ∧
    serializeProjectsSort .RecentDownloads = "-recent-downloads" ∧
    serializeProjectsSort .RecentViews = "-recent-views" ∧
    serializeProjectsSort .Slug = "slug" :=
  ⟨rfl, rfl, rfl, rfl, rfl, rfl, rfl, rfl⟩

/-- C4: every optional filter that is `none` contributes no key at all to
the serialized parameter set, for `ProjectsRequest` and for
`VersionsRequest` (the two request types with optional filters). -/
theorem absent_filters_omitted :
    (∀ r : ProjectsRequest,
      (r.prioritizeExactMatch = none →
        "prioritizeExactMatch" ∉ r.params.map Prod.fst) ∧
      (r.sort = none → "sort" ∉ r.params.map Prod.fst) ∧
      (r.category = none → "category" ∉ r.params.map Prod.fst) ∧
      (r.platform = none → "platform" ∉ r.params.map Prod.fst) ∧
      (r.owner = none → "owner" ∉ r.params.map Prod.fst) ∧
      (r.query = none → "query" ∉ r.params.map Prod.fst) ∧
      (r.license = none → "license" ∉ r.params.map Prod.fst) ∧
      (r.version = none → "version" ∉ r.params.map Prod.fst) ∧
      (r.tag = none → "tag" ∉ r.params.map Prod.fst) ∧
      (r.member = none → "member" ∉ r.params.map Prod.fst)) ∧
    (∀ r : VersionsRequest,
      (r.includeHiddenChannels = none →
        "includeHiddenChannels" ∉ r.params.map Prod.fst) ∧
      (r.channel = none → "channel" ∉ r.params.map Prod.fst) ∧
      (r.platform = none → "platform" ∉ r.params.map Prod.fst) ∧
      (r.platformVersion = none →
        "platformVersion" ∉ r.params.map Prod.fst)) := by
  constructor
  · intro r
    refine ⟨?_, ?_, ?_, ?_, ?_, ?_, ?_, ?_, ?_, ?_⟩ <;>
      (intro h; simp [ProjectsRequest.params, pair_mem_optPair, h])
  · intro r
    refine ⟨?_, ?_, ?_, ?_⟩ <;>
      (intro h; simp [VersionsRequest.params, pair_mem_optPair, h])

/-- Witness for C4: at requests with every filter absent, no optional key
occurs. -/
theorem absent_filters_omitted_witness :
    ("prioritizeExactMatch" ∉ allNoneProjectsRequest.params.map Prod.fst) ∧
    ("sort" ∉ allNoneProjectsRequest.params.map Prod.fst) ∧
    ("category" ∉ allNoneProjectsRequest.params.map Prod.fst) ∧
    ("platform" ∉ allNoneProjectsRequest.params.map Prod.fst) ∧
    ("owner" ∉ allNoneProjectsRequest.params.map Prod.fst) ∧
    ("query" ∉ allNoneProjectsRequest.params.map Prod.fst) ∧
    ("license" ∉ allNoneProjectsRequest.params.map Prod.fst) ∧
    ("version" ∉ allNoneProjectsRequest.params.map Prod.fst) ∧
    ("tag" ∉ allNoneProjectsRequest.params.map Prod.fst) ∧
    ("member" ∉ allNoneProjectsRequest.params.map Prod.fst) ∧
    ("includeHiddenChannels" ∉ allNoneVersionsRequest.params.map Prod.fst) ∧
    ("channel" ∉ allNoneVersionsRequest.params.map Prod.fst) ∧
    ("platform" ∉ allNoneVersionsRequest.params.map Prod.fst) ∧
    ("platformVersion" ∉ allNoneVersionsRequest.params.map Prod.fst) := by
  have h1 := absent_filters_omitted.1 allNoneProjectsRequest
  have h2 := absent_filters_omitted.2 allNoneVersionsRequest
  exact ⟨h1.1 rfl, h1.2.1 rfl, h1.2.2.1 rfl, h1.2.2.2.1 rfl, h1.2.2.2.2.1 rfl,
    h1.2.2.2.2.2.1 rfl, h1.2.2.2.2.2.2.1 rfl, h1.2.2.2.2.2.2.2.1 rfl,
    h1.2.2.2.2.2.2.2.2.1 rfl, h1.2.2.2.2.2.2.2.2.2 rfl,
    h2.1 rfl, h2.2.1 rfl, h2.2.2.1 rfl, h2.2.2.2 rfl⟩

/-- C5: `ByPlatform` iteration yields exactly the present (platform,
value) pairs in the fixed order Paper, Waterfall, Velocity, and a value
decoded from the object with only a `PAPER` entry behaves as the spec
says under `get` and `iter`. -/
theorem byPlatform_iter_get :
    (∀ (T : Type) (b : ByPlatform T) (p : Platform) (v : T),
      (p, v) ∈ b.iter ↔ b.get p = some v) ∧
    (∀ (T : Type) (b : ByPlatform T),
      (b.iter.map Prod.fst).Sublist
        [Platform.Paper, Platform.Waterfall, Platform.Velocity]) ∧
    decodeByPlatform decodeInt (.obj [("PAPER", .num 5)]) =
      .ok { paper := some 5, waterfall := none, velocity := none } ∧
    ({ paper := some (5 : Int), waterfall := none, velocity := none } :
      ByPlatform Int).get .Paper = some 5 ∧
    ({ paper := some (5 : Int), waterfall := none, velocity := none } :
      ByPlatform Int).get .Waterfall = none ∧
    ({ paper := some (5 : Int), waterfall := none, velocity := none } :
      ByPlatform Int).get .Velocity = none ∧
    ({ paper := some (5 : Int), waterfall := none, velocity := none } :
      ByPlatform Int).iter = [(Platform.Paper, 5)] := by
  refine ⟨?_, ?_, rfl, rfl, rfl, rfl, rfl⟩
  · intro T b p v
    rcases b with ⟨pa, wa, ve⟩
    cases p <;> cases pa <;> cases wa <;> cases ve <;>
      simp [ByPlatform.iter, ByPlatform.get, eq_comm]
  · intro T b
    rcases b with ⟨pa, wa, ve⟩
    cases pa <;> cases wa <;> cases ve <;> simp [ByPlatform.iter]

/-- C6: every enum-typed response field decodes only the listed variant
literals; any other JSON value is a decode error, with no catch-all
variant. -/
theorem enum_decoding_closed :
    (∀ j, (decodeCategory j).isOk = true ↔ ∃ s, j = .str s ∧
      s ∈ ["admin_tools", "chat", "dev_tools", "economy", "gameplay", "games",
        "protection", "role_playing", "world_management", "misc", "undefined"]) ∧
    (∀ j, (decodePlatform j).isOk = true ↔ ∃ s, j = .str s ∧
      s ∈ ["PAPER", "WATERFALL", "VELOCITY"]) ∧
    (∀ j, (decodeVisibility j).isOk = true ↔ ∃ s, j = .str s ∧
      s ∈ ["public", "new", "needsChanges", "needsApproval", "softDelete"]) ∧
    (∀ j, (decodeReviewState j).isOk = true ↔ ∃ s, j = .str s ∧
      s ∈ ["unreviewed", "reviewed", "underReview", "partiallyReviewed"]) ∧
    (∀ j, (decodeChannelFlags j).isOk = true ↔ ∃ s, j = .str s ∧
      s ∈ ["FROZEN", "UNSTABLE", "PINNED", "SENDS_NOTIFICATIONS",
        "HIDE_BY_DEFAULT"]) ∧
    (∀ j, (decodePinnedStatus j).isOk = true ↔ ∃ s, j = .str s ∧
      s ∈ ["NONE", "VERSION", "CHANNEL"]) ∧
    (∀ j, (decodeProjectTags j).isOk = true ↔ ∃ s, j = .str s ∧
      s ∈ ["ADDON", "LIBRARY", "SUPPORTS_FOLIA"]) :=
  ⟨fun j => decodeEnum_isOk _ _ j, fun j => decodeEnum_isOk _ _ j,
   fun j => decodeEnum_isOk _ _ j, fun j => decodeEnum_isOk _ _ j,
   fun j => decodeEnum_isOk _ _ j, fun j => decodeEnum_isOk _ _ j,
   fun j => decodeEnum_isOk _ _ j⟩

/-- C7: serializing a `ProjectsRequest` built from a pagination into a
query string and re-parsing that query string recovers the same limit
and offset. -/
theorem pagination_roundtrip (l o : Int) :
    ((parseQuery (formatQuery (ProjectsRequest.params
        { prioritizeExactMatch := none, pagination := { limit := l, offset := o },
          sort := none, category := none, platform := none, owner := none,
          query := none, license := none, version := none, tag := none,
          member := none }))).lookup "limit").bind parseIntStr = some l ∧
    ((parseQuery (formatQuery (ProjectsRequest.params
        { prioritizeExactMatch := none, pagination := { limit := l, offset := o },
          sort := none, category := none, platform := none, owner := none,
          query := none, license := none, version := none, tag := none,
          member := none }))).lookup "offset").bind parseIntStr = some o := by
  have hdata : (formatQuery [("limit", intDec l), ("offset", intDec o)]).data
      = ("limit".data ++ '=' :: intDecChars l)
        ++ '&' :: ("offset".data ++ '=' :: intDecChars o) := by
    show (("limit" ++ "=" ++ intDec l) ++ "&" ++ ("offset" ++ "=" ++ intDec o)).data = _
    have hID : ∀ n : Int, (intDec n).data = intDecChars n := fun _ => rfl
    simp [String.data_append, hID]
  have hamp1 : ('&' : Char) ∉ "limit".data ++ '=' :: intDecChars l := by
    intro hm
    rcases List.mem_append.mp hm with hm | hm
    · revert hm; decide
    · rcases List.mem_cons.mp hm with e | hm
      · exact absurd e (by decide)
      · exact amp_not_mem_intDecChars l hm
  have hamp2 : ('&' : Char) ∉ "offset".data ++ '=' :: intDecChars o := by
    intro hm
    rcases List.mem_append.mp hm with hm | hm
    · revert hm; decide
    · rcases List.mem_cons.mp hm with e | hm
      · exact absurd e (by decide)
      · exact amp_not_mem_intDecChars o hm
  have hsplit : splitOnChar '&' (formatQuery
      [("limit", intDec l), ("offset", intDec o)]).data
      = [("limit".data ++ '=' :: intDecChars l),
         ("offset".data ++ '=' :: intDecChars o)] := by
    rw [hdata, splitOnChar_append hamp1, splitOnChar_of_not_mem hamp2]
  have hq : parseQuery (formatQuery [("limit", intDec l), ("offset", intDec o)])
      = [("limit", ⟨intDecChars l⟩), ("offset", ⟨intDecChars o⟩)] := by
    unfold parseQuery
    rw [hsplit]
    simp only [List.map]
    rw [splitKV_append (by decide), splitKV_append (by decide)]
  have hp : ProjectsRequest.params
      { prioritizeExactMatch := none, pagination := { limit := l, offset := o },
        sort := none, category := none, platform := none, owner := none,
        query := none, license := none, version := none, tag := none,
        member := none }
      = [("limit", intDec l), ("offset", intDec o)] := rfl
  rw [hp, hq]
  exact ⟨parseInt_intDec l, parseInt_intDec o⟩

/-- C8 counterexample: an ambiguous payload carrying the required fields
of both variants decodes successfully as `Internal`, so ambiguity is not
a deserialization error. -/
theorem ambiguous_payload_decodes_internal :
    decodeVersionDownloads jAmbiguousPayload =
      .ok (.Internal { name := "plugin.jar", sizeBytes := 1024, sha256Hash := "abc" }
        "https://hangar.papermc.io/dl") ∧
    (decodeVersionDownloads jAmbiguousPayload).isOk = true :=
  ⟨rfl, rfl⟩

/-- C8 amended: a payload matching neither shape (an empty object
included) is a deserialization error, while a payload in which both
shapes' required fields are present decodes as the first-listed
`Internal` variant rather than erroring. -/
theorem versionDownloads_first_match (j : Json) :
    (hasInternalShape j = true → hasExternalShape j = true →
      ∃ fi du, decodeVersionDownloads j = .ok (.Internal fi du)) ∧
    (hasInternalShape j = false → hasExternalShape j = false →
      ∃ e, decodeVersionDownloads j = .error e) :=
  ⟨fun hI _ => vd_internal_case j hI, vd_error_case j⟩

/-- Witness for the amended C8: the ambiguous payload decodes as
`Internal` and the no-match payload errors. -/
theorem versionDownloads_first_match_witness :
    (∃ fi du, decodeVersionDownloads jAmbiguousPayload = .ok (.Internal fi du)) ∧
    (∃ e, decodeVersionDownloads jNoMatchPayload = .error e) :=
  ⟨(versionDownloads_first_match jAmbiguousPayload).1 rfl rfl,
   (versionDownloads_first_match jNoMatchPayload).2 rfl rfl⟩

/-- C9 counterexample: `From<(i64, i64)>` copies negative values into
`Pagination` unvalidated, so not every publicly constructible value has
non-negative limit and offset. -/
theorem pagination_fromPair_negative :
    (Pagination.fromPair (-1, -2)).limit < 0 ∧
    (Pagination.fromPair (-1, -2)).offset < 0 := by decide

/-- C9 amended: the default `Pagination` is limit 25, offset 0, both
non-negative; the `From` conversion copies the given pair through
without validation. -/
theorem pagination_default_and_fromPair :
    Pagination.default.limit = 25 ∧ Pagination.default.offset = 0 ∧
    0 ≤ Pagination.default.limit ∧ 0 ≤ Pagination.default.offset ∧
    ∀ v : Int × Int, Pagination.fromPair v = { limit := v.1, offset := v.2 } :=
  ⟨rfl, rfl, by decide, by decide, fun v => rfl⟩

/-- C10: the serialized parameter set of a `PageRequest` is exactly the
one `path` pair; the skipped slug never appears. -/
theorem pageRequest_params_path_only (r : PageRequest) :
    r.params.map Prod.fst = ["path"] ∧
    r.params.lookup "path" = some r.path ∧
    "slug" ∉ r.params.map Prod.fst :=
  ⟨rfl, rfl, by simp [PageRequest.params]⟩

end Hangar
